import Mathlib

/-!
Shallow embedding of `Serial_Communication_and_Non-Volatile_Memory.cpp`:
an interrupt-driven finite state machine on an STM32 board that displays
the RTC time, lets the user edit it, and logs button-press timestamps
into a two-slot rotating EEPROM log.

Modelling conventions:
* `time_t` values are natural numbers (seconds since the epoch, UTC, no
  DST), so `localtime` decomposes as `tmDay / tmHour / tmMin / tmSec`
  and `mktime` recomposes them.
* Bytes are natural numbers (ASCII codes); EEPROM slots and the RAM
  buffers `prevTime1` / `prevTime2` are 20-byte lists.
* Each interrupt service routine is a function `Sys → Sys`; one main-loop
  iteration is `mainStep`.  The local `char timebuff[20]` in `SaveTime`
  starts with indeterminate stack content, so `SaveTime` takes the prior
  buffer bytes as an explicit argument `stack`; `sprintf` overwrites only
  its first 9 bytes ("HH:MM:SS" plus the terminating NUL).
* The RTC is the `clock` field; it advances only via `tick` (hardware
  time passing) or `set_time` (modelled inside `commitPending`).
-/

/-- The FSM states, from the `SystemState` enum. -/
inductive SystemState where
  | DISPLAY_TIME
  | SAVE_TIME
  | PREV_TIMES
  | SET_TIME
deriving DecidableEq, Repr

/-- `tm_hour` of a `time_t` value. -/
def tmHour (t : Nat) : Nat := t % 86400 / 3600

/-- `tm_min` of a `time_t` value. -/
def tmMin (t : Nat) : Nat := t % 3600 / 60

/-- `tm_sec` of a `time_t` value. -/
def tmSec (t : Nat) : Nat := t % 60

/-- The day part of a `time_t` value (everything above hours). -/
def tmDay (t : Nat) : Nat := t / 86400

/-- `mktime`: recompose a `time_t` from day, hour, minute, second. -/
def mktime (day h m s : Nat) : Nat := day * 86400 + h * 3600 + m * 60 + s

/-- The body of `ValueIncrement`'s editing branch: `localtime`, bump one
field modulo its range, `mktime`.  Field 0 is hours (mod 24), field 1 is
minutes (mod 60), anything else is seconds (mod 60). -/
def incrementField (field : Nat) (t : Nat) : Nat :=
  if field = 0 then mktime (tmDay t) ((tmHour t + 1) % 24) (tmMin t) (tmSec t)
  else if field = 1 then mktime (tmDay t) (tmHour t) ((tmMin t + 1) % 60) (tmSec t)
  else mktime (tmDay t) (tmHour t) (tmMin t) ((tmSec t + 1) % 60)

/-- The two ASCII digits `sprintf` produces for `%02d` on `0 ≤ n < 100`. -/
def digits2 (n : Nat) : List Nat := [48 + n / 10, 48 + n % 10]

/-- The eight ASCII bytes "HH:MM:SS" for a `time_t` value (58 is a colon). -/
def fmtHMS (t : Nat) : List Nat :=
  digits2 (tmHour t) ++ 58 :: digits2 (tmMin t) ++ 58 :: digits2 (tmSec t)

/-- Contents of `timebuff` after `sprintf(timebuff, "%02d:%02d:%02d", …)`:
the eight formatted bytes, the terminating NUL, and the eleven residual
bytes the stack buffer already held (`sprintf` never touches them). -/
def sprintfBuffer (t : Nat) (stack : List Nat) : List Nat :=
  fmtHMS t ++ 0 :: stack.drop 9

/-- The global program state together with its external collaborators:
the RTC (`clock`) and the two EEPROM slots (offset 0 and offset 20). -/
structure Sys where
  state : SystemState
  selectedField : Nat
  selectedTime : Nat
  timeIsDirty : Bool
  rawTime : Nat
  prevTime1 : List Nat
  prevTime2 : List Nat
  clock : Nat
  slot1 : List Nat
  slot2 : List Nat
deriving DecidableEq, Repr

/-- ISR for the onboard user button (save/log): commit edits if editing,
then go persist. -/
def GetTime (s : Sys) : Sys :=
  { s with
    timeIsDirty := if s.state = SystemState.SET_TIME then true else s.timeIsDirty,
    state := SystemState.SAVE_TIME }

/-- ISR for the display button (toggle log view): commit edits if editing,
then toggle between the log view and the live display. -/
def DisplayTimes (s : Sys) : Sys :=
  { s with
    timeIsDirty := if s.state = SystemState.SET_TIME then true else s.timeIsDirty,
    state := if s.state ≠ SystemState.PREV_TIMES
             then SystemState.PREV_TIMES else SystemState.DISPLAY_TIME }

/-- ISR for the cycle button: enter editing (snapshotting `rawTime`) or
rotate the selected field. -/
def ValueCycle (s : Sys) : Sys :=
  if s.state ≠ SystemState.SET_TIME then
    { s with state := SystemState.SET_TIME, selectedTime := s.rawTime, selectedField := 0 }
  else
    { s with selectedField := (s.selectedField + 1) % 3 }

/-- ISR for the increment button: enter editing (snapshotting `rawTime`)
or bump the selected field of the working copy. -/
def ValueIncrement (s : Sys) : Sys :=
  if s.state ≠ SystemState.SET_TIME then
    { s with state := SystemState.SET_TIME, selectedTime := s.rawTime, selectedField := 0 }
  else
    { s with selectedTime := incrementField s.selectedField s.selectedTime }

/-- The four debounced edge events and the ISR each one triggers. -/
inductive Event where
  | LogPressed
  | TogglePressed
  | CyclePressed
  | IncrementPressed
deriving DecidableEq, Repr

/-- Dispatch an event to its interrupt service routine. -/
def handle : Event → Sys → Sys
  | Event.LogPressed, s => GetTime s
  | Event.TogglePressed, s => DisplayTimes s
  | Event.CyclePressed, s => ValueCycle s
  | Event.IncrementPressed, s => ValueIncrement s

/-- `ShowTime`: refresh `rawTime` from the RTC (the LCD calls are pure
output and do not touch modelled state). -/
def ShowTime (s : Sys) : Sys := { s with rawTime := s.clock }

/-- `ShowPreviousTimes`: read both EEPROM slots into the RAM buffers. -/
def ShowPreviousTimes (s : Sys) : Sys :=
  { s with prevTime1 := s.slot1, prevTime2 := s.slot2 }

/-- `SaveTime`: read slot 1 into `prevTime1`, read the RTC into
`rawTime`, format it into `timebuff` (whose residual stack bytes are
`stack`), write the old slot-1 record to slot 2 and the fresh record to
slot 1, then return to the idle display state. -/
def SaveTime (stack : List Nat) (s : Sys) : Sys :=
  { s with
    prevTime1 := s.slot1,
    rawTime := s.clock,
    slot2 := s.slot1,
    slot1 := sprintfBuffer s.clock stack,
    state := SystemState.DISPLAY_TIME }

/-- `SetTime`: render the working time with the selected field marked;
pure display, no modelled state changes. -/
def SetTime (s : Sys) : Sys := s

/-- The dirty-commit at the top of each main-loop iteration:
`set_time(selectedTime)` followed by clearing the flag. -/
def commitPending (s : Sys) : Sys :=
  if s.timeIsDirty then { s with clock := s.selectedTime, timeIsDirty := false } else s

/-- One iteration of the `while (1)` main loop: commit a pending edit,
then dispatch on the FSM state.  `stack` is the indeterminate initial
content of `SaveTime`'s local buffer for this iteration. -/
def mainStep (stack : List Nat) (s : Sys) : Sys :=
  let s1 := commitPending s
  match s1.state with
  | SystemState.DISPLAY_TIME => ShowTime s1
  | SystemState.SAVE_TIME => SaveTime stack s1
  | SystemState.PREV_TIMES => ShowPreviousTimes s1
  | SystemState.SET_TIME => SetTime s1

/-- The RTC advancing by `n` seconds between program steps. -/
def tick (n : Nat) (s : Sys) : Sys := { s with clock := s.clock + n }

/-- The state right after `main`'s initialisation: globals are
zero-initialised, the FSM starts in `DISPLAY_TIME`, `set_time` has put
`c` into the RTC, and the EEPROM slots hold whatever the device already
stored (`e1`, `e2`). -/
def boot (c : Nat) (e1 e2 : List Nat) : Sys :=
  { state := SystemState.DISPLAY_TIME, selectedField := 0, selectedTime := 0,
    timeIsDirty := false, rawTime := 0,
    prevTime1 := List.replicate 20 0, prevTime2 := List.replicate 20 0,
    clock := c, slot1 := e1, slot2 := e2 }

/-- One save operation of a save sequence: the RTC has advanced to `p.1`
when `SaveTime` runs, and `p.2` is the residual stack content of its
buffer. -/
def doSave (s : Sys) (p : Nat × List Nat) : Sys :=
  SaveTime p.2 { s with clock := p.1 }

/-- A whole save sequence, earliest first. -/
def doSaves (ps : List (Nat × List Nat)) (s : Sys) : Sys := ps.foldl doSave s

/-- The 20-byte record a save operation writes into slot 1. -/
def savedValue (p : Nat × List Nat) : List Nat := sprintfBuffer p.1 p.2

/-- Spec-side view of the edit session (data model section of the spec):
`Some (selectedField, workingTime)` exactly while the FSM is editing,
`none` otherwise.  The C globals themselves always exist; this is the
abstraction the spec's `EditSession?` denotes. -/
def specEditSession (s : Sys) : Option (Nat × Nat) :=
  if s.state = SystemState.SET_TIME then some (s.selectedField, s.selectedTime) else none

/-- Spec-side predicate (following the claim's words): a 20-byte record
consisting of the eight ASCII bytes "HH:MM:SS" for time `t` followed by
zero/space padding bytes filling the remainder. -/
def isPaddedRecord (t : Nat) (r : List Nat) : Prop :=
  r.length = 20 ∧ r.take 8 = fmtHMS t ∧ ∀ b ∈ r.drop 8, b = 0 ∨ b = 32

instance (t : Nat) (r : List Nat) : Decidable (isPaddedRecord t r) := by
  unfold isPaddedRecord; infer_instance

/-- All-zero 20-byte record: content of a factory-fresh (default) slot. -/
def zeroRecord : List Nat := List.replicate 20 0

/-- A concrete editing-mode state used to instantiate theorems that
assume the FSM is in `SET_TIME`. -/
def demoEditing : Sys :=
  { state := SystemState.SET_TIME, selectedField := 0, selectedTime := 30,
    timeIsDirty := false, rawTime := 30,
    prevTime1 := zeroRecord, prevTime2 := zeroRecord,
    clock := 30, slot1 := zeroRecord, slot2 := zeroRecord }

/-! ### Arithmetic facts about the `localtime` / `mktime` model -/

theorem time_decompose (t : Nat) : mktime (tmDay t) (tmHour t) (tmMin t) (tmSec t) = t := by
  unfold mktime tmDay tmHour tmMin tmSec; omega

theorem tmHour_mktime (d h m s : Nat) (hm : m < 60) (hs : s < 60) (hh : h < 24) :
    tmHour (mktime d h m s) = h := by unfold tmHour mktime; omega

theorem tmMin_mktime (d h m s : Nat) (hm : m < 60) (hs : s < 60) :
    tmMin (mktime d h m s) = m := by unfold tmMin mktime; omega

theorem tmSec_mktime (d h m s : Nat) (hs : s < 60) :
    tmSec (mktime d h m s) = s := by unfold tmSec mktime; omega

theorem tmDay_mktime (d h m s : Nat) (hm : m < 60) (hs : s < 60) (hh : h < 24) :
    tmDay (mktime d h m s) = d := by unfold tmDay mktime; omega

theorem tmHour_lt (t : Nat) : tmHour t < 24 := by unfold tmHour; omega

theorem tmMin_lt (t : Nat) : tmMin t < 60 := by unfold tmMin; omega

theorem tmSec_lt (t : Nat) : tmSec t < 60 := by unfold tmSec; omega

theorem tmHour_incrementField_zero (t : Nat) :
    tmHour (incrementField 0 t) = (tmHour t + 1) % 24 := by
  unfold incrementField
  rw [if_pos rfl, tmHour_mktime _ _ _ _ (tmMin_lt t) (tmSec_lt t) (Nat.mod_lt _ (by omega))]

theorem tmMin_incrementField_zero (t : Nat) :
    tmMin (incrementField 0 t) = tmMin t := by
  unfold incrementField
  rw [if_pos rfl, tmMin_mktime _ _ _ _ (tmMin_lt t) (tmSec_lt t)]

theorem tmSec_incrementField_zero (t : Nat) :
    tmSec (incrementField 0 t) = tmSec t := by
  unfold incrementField
  rw [if_pos rfl, tmSec_mktime _ _ _ _ (tmSec_lt t)]

theorem tmDay_incrementField_zero (t : Nat) :
    tmDay (incrementField 0 t) = tmDay t := by
  unfold incrementField
  rw [if_pos rfl, tmDay_mktime _ _ _ _ (tmMin_lt t) (tmSec_lt t) (Nat.mod_lt _ (by omega))]

theorem incrementField_one_eq (t : Nat) :
    incrementField 1 t = mktime (tmDay t) (tmHour t) ((tmMin t + 1) % 60) (tmSec t) := by
  unfold incrementField; simp

theorem incrementField_two_eq (f t : Nat) (h0 : f ≠ 0) (h1 : f ≠ 1) :
    incrementField f t = mktime (tmDay t) (tmHour t) (tmMin t) ((tmSec t + 1) % 60) := by
  unfold incrementField
  rw [if_neg h0, if_neg h1]

theorem tmHour_incrementField_one (t : Nat) :
    tmHour (incrementField 1 t) = tmHour t := by
  rw [incrementField_one_eq,
    tmHour_mktime _ _ _ _ (Nat.mod_lt _ (by omega)) (tmSec_lt t) (tmHour_lt t)]

theorem tmMin_incrementField_one (t : Nat) :
    tmMin (incrementField 1 t) = (tmMin t + 1) % 60 := by
  rw [incrementField_one_eq, tmMin_mktime _ _ _ _ (Nat.mod_lt _ (by omega)) (tmSec_lt t)]

theorem tmSec_incrementField_one (t : Nat) :
    tmSec (incrementField 1 t) = tmSec t := by
  rw [incrementField_one_eq, tmSec_mktime _ _ _ _ (tmSec_lt t)]

theorem tmDay_incrementField_one (t : Nat) :
    tmDay (incrementField 1 t) = tmDay t := by
  rw [incrementField_one_eq,
    tmDay_mktime _ _ _ _ (Nat.mod_lt _ (by omega)) (tmSec_lt t) (tmHour_lt t)]

theorem tmHour_incrementField_two (t : Nat) :
    tmHour (incrementField 2 t) = tmHour t := by
  rw [incrementField_two_eq 2 t (by omega) (by omega),
    tmHour_mktime _ _ _ _ (tmMin_lt t) (Nat.mod_lt _ (by omega)) (tmHour_lt t)]

theorem tmMin_incrementField_two (t : Nat) :
    tmMin (incrementField 2 t) = tmMin t := by
  rw [incrementField_two_eq 2 t (by omega) (by omega),
    tmMin_mktime _ _ _ _ (tmMin_lt t) (Nat.mod_lt _ (by omega))]

theorem tmSec_incrementField_two (t : Nat) :
    tmSec (incrementField 2 t) = (tmSec t + 1) % 60 := by
  rw [incrementField_two_eq 2 t (by omega) (by omega),
    tmSec_mktime _ _ _ _ (Nat.mod_lt _ (by omega))]

theorem tmDay_incrementField_two (t : Nat) :
    tmDay (incrementField 2 t) = tmDay t := by
  rw [incrementField_two_eq 2 t (by omega) (by omega),
    tmDay_mktime _ _ _ _ (tmMin_lt t) (Nat.mod_lt _ (by omega)) (tmHour_lt t)]

theorem incrementField_zero_iter (k t : Nat) :
    (incrementField 0)^[k] t = mktime (tmDay t) ((tmHour t + k) % 24) (tmMin t) (tmSec t) := by
  induction k with
  | zero => simp [Nat.mod_eq_of_lt (tmHour_lt t), time_decompose]
  | succ k ih =>
    rw [Function.iterate_succ_apply', ih]
    unfold incrementField
    rw [if_pos rfl]
    rw [tmDay_mktime _ _ _ _ (tmMin_lt t) (tmSec_lt t) (Nat.mod_lt _ (by omega)),
        tmHour_mktime _ _ _ _ (tmMin_lt t) (tmSec_lt t) (Nat.mod_lt _ (by omega)),
        tmMin_mktime _ _ _ _ (tmMin_lt t) (tmSec_lt t),
        tmSec_mktime _ _ _ _ (tmSec_lt t)]
    have hmod : ((tmHour t + k) % 24 + 1) % 24 = (tmHour t + (k + 1)) % 24 := by omega
    rw [hmod]

theorem incrementField_one_iter (k t : Nat) :
    (incrementField 1)^[k] t = mktime (tmDay t) (tmHour t) ((tmMin t + k) % 60) (tmSec t) := by
  induction k with
  | zero => simp [Nat.mod_eq_of_lt (tmMin_lt t), time_decompose]
  | succ k ih =>
    rw [Function.iterate_succ_apply', ih, incrementField_one_eq]
    rw [tmDay_mktime _ _ _ _ (Nat.mod_lt _ (by omega)) (tmSec_lt t) (tmHour_lt t),
        tmHour_mktime _ _ _ _ (Nat.mod_lt _ (by omega)) (tmSec_lt t) (tmHour_lt t),
        tmMin_mktime _ _ _ _ (Nat.mod_lt _ (by omega)) (tmSec_lt t),
        tmSec_mktime _ _ _ _ (tmSec_lt t)]
    have hmod : ((tmMin t + k) % 60 + 1) % 60 = (tmMin t + (k + 1)) % 60 := by omega
    rw [hmod]

theorem incrementField_two_iter (k t : Nat) :
    (incrementField 2)^[k] t = mktime (tmDay t) (tmHour t) (tmMin t) ((tmSec t + k) % 60) := by
  induction k with
  | zero => simp [Nat.mod_eq_of_lt (tmSec_lt t), time_decompose]
  | succ k ih =>
    rw [Function.iterate_succ_apply', ih, incrementField_two_eq 2 _ (by omega) (by omega)]
    rw [tmDay_mktime _ _ _ _ (tmMin_lt t) (Nat.mod_lt _ (by omega)) (tmHour_lt t),
        tmHour_mktime _ _ _ _ (tmMin_lt t) (Nat.mod_lt _ (by omega)) (tmHour_lt t),
        tmMin_mktime _ _ _ _ (tmMin_lt t) (Nat.mod_lt _ (by omega)),
        tmSec_mktime _ _ _ _ (Nat.mod_lt _ (by omega))]
    have hmod : ((tmSec t + k) % 60 + 1) % 60 = (tmSec t + (k + 1)) % 60 := by omega
    rw [hmod]

/-! ### Claim theorems -/

/-- C7: applying the increment operation 24 times to the Hour field
returns the original time value (hence the original hour), applying it
60 times to the Minute or Second field returns the original value, and a
single increment wraps modulo its field's range without carrying into
any other field (or the day). -/
theorem C7_field_wraparound (t : Nat) :
    ((incrementField 0)^[24] t = t ∧ (incrementField 1)^[60] t = t ∧
      (incrementField 2)^[60] t = t) ∧
    (tmMin (incrementField 0 t) = tmMin t ∧ tmSec (incrementField 0 t) = tmSec t ∧
      tmDay (incrementField 0 t) = tmDay t ∧
      tmHour (incrementField 0 t) = (tmHour t + 1) % 24) ∧
    (tmHour (incrementField 1 t) = tmHour t ∧ tmSec (incrementField 1 t) = tmSec t ∧
      tmDay (incrementField 1 t) = tmDay t ∧
      tmMin (incrementField 1 t) = (tmMin t + 1) % 60) ∧
    (tmHour (incrementField 2 t) = tmHour t ∧ tmMin (incrementField 2 t) = tmMin t ∧
      tmDay (incrementField 2 t) = tmDay t ∧
      tmSec (incrementField 2 t) = (tmSec t + 1) % 60) := by
  refine ⟨⟨?_, ?_, ?_⟩,
    ⟨tmMin_incrementField_zero t, tmSec_incrementField_zero t,
      tmDay_incrementField_zero t, tmHour_incrementField_zero t⟩,
    ⟨tmHour_incrementField_one t, tmSec_incrementField_one t,
      tmDay_incrementField_one t, tmMin_incrementField_one t⟩,
    ⟨tmHour_incrementField_two t, tmMin_incrementField_two t,
      tmDay_incrementField_two t, tmSec_incrementField_two t⟩⟩
  · rw [incrementField_zero_iter]
    have h := tmHour_lt t
    have e : (tmHour t + 24) % 24 = tmHour t := by omega
    rw [e, time_decompose]
  · rw [incrementField_one_iter]
    have h := tmMin_lt t
    have e : (tmMin t + 60) % 60 = tmMin t := by omega
    rw [e, time_decompose]
  · rw [incrementField_two_iter]
    have h := tmSec_lt t
    have e : (tmSec t + 60) % 60 = tmSec t := by omega
    rw [e, time_decompose]

/-- C10: an IncrementPressed event in any non-editing state only enters
editing with the field marker reset to Hour and the working copy set to
the `rawTime` snapshot; it increments no time field and leaves the dirty
flag, the RTC, the cached time and both EEPROM slots unchanged. -/
theorem C10_increment_enters_editing (s : Sys) (h : s.state ≠ SystemState.SET_TIME) :
    (handle Event.IncrementPressed s).state = SystemState.SET_TIME ∧
    (handle Event.IncrementPressed s).selectedField = 0 ∧
    (handle Event.IncrementPressed s).selectedTime = s.rawTime ∧
    (handle Event.IncrementPressed s).timeIsDirty = s.timeIsDirty ∧
    (handle Event.IncrementPressed s).clock = s.clock ∧
    (handle Event.IncrementPressed s).rawTime = s.rawTime ∧
    (handle Event.IncrementPressed s).slot1 = s.slot1 ∧
    (handle Event.IncrementPressed s).slot2 = s.slot2 := by
  simp [handle, ValueIncrement, h]

/-- Witness for `C10_increment_enters_editing` at the boot state. -/
theorem C10_witness :
    (handle Event.IncrementPressed (boot 5 zeroRecord zeroRecord)).state
        = SystemState.SET_TIME ∧
    (handle Event.IncrementPressed (boot 5 zeroRecord zeroRecord)).selectedField = 0 ∧
    (handle Event.IncrementPressed (boot 5 zeroRecord zeroRecord)).selectedTime
        = (boot 5 zeroRecord zeroRecord).rawTime := by
  have h := C10_increment_enters_editing (boot 5 zeroRecord zeroRecord) (by decide)
  exact ⟨h.1, h.2.1, h.2.2.1⟩

/-- C9: an IncrementPressed event while editing only replaces the
detached working copy by `incrementField` on the currently selected
field; the mode, the selected-field marker, the dirty flag, the RTC and
both EEPROM slots are unchanged, and the two time fields other than the
selected one keep their values. -/
theorem C9_increment_frame (s : Sys) (h : s.state = SystemState.SET_TIME) :
    ((handle Event.IncrementPressed s).state = SystemState.SET_TIME ∧
     (handle Event.IncrementPressed s).selectedField = s.selectedField ∧
     (handle Event.IncrementPressed s).timeIsDirty = s.timeIsDirty ∧
     (handle Event.IncrementPressed s).clock = s.clock ∧
     (handle Event.IncrementPressed s).rawTime = s.rawTime ∧
     (handle Event.IncrementPressed s).slot1 = s.slot1 ∧
     (handle Event.IncrementPressed s).slot2 = s.slot2 ∧
     (handle Event.IncrementPressed s).selectedTime
        = incrementField s.selectedField s.selectedTime) ∧
    (s.selectedField = 0 →
      tmMin (handle Event.IncrementPressed s).selectedTime = tmMin s.selectedTime ∧
      tmSec (handle Event.IncrementPressed s).selectedTime = tmSec s.selectedTime ∧
      tmDay (handle Event.IncrementPressed s).selectedTime = tmDay s.selectedTime) ∧
    (s.selectedField = 1 →
      tmHour (handle Event.IncrementPressed s).selectedTime = tmHour s.selectedTime ∧
      tmSec (handle Event.IncrementPressed s).selectedTime = tmSec s.selectedTime ∧
      tmDay (handle Event.IncrementPressed s).selectedTime = tmDay s.selectedTime) ∧
    (s.selectedField ≠ 0 → s.selectedField ≠ 1 →
      tmHour (handle Event.IncrementPressed s).selectedTime = tmHour s.selectedTime ∧
      tmMin (handle Event.IncrementPressed s).selectedTime = tmMin s.selectedTime ∧
      tmDay (handle Event.IncrementPressed s).selectedTime = tmDay s.selectedTime) := by
  have hs : handle Event.IncrementPressed s
      = { s with selectedTime := incrementField s.selectedField s.selectedTime } := by
    simp [handle, ValueIncrement, h]
  rw [hs]
  refine ⟨⟨h, rfl, rfl, rfl, rfl, rfl, rfl, rfl⟩, ?_, ?_, ?_⟩
  · intro hf
    simp only [hf]
    exact ⟨tmMin_incrementField_zero _, tmSec_incrementField_zero _,
      tmDay_incrementField_zero _⟩
  · intro hf
    simp only [hf]
    exact ⟨tmHour_incrementField_one _, tmSec_incrementField_one _,
      tmDay_incrementField_one _⟩
  · intro h0 h1
    simp only [incrementField_two_eq s.selectedField _ h0 h1]
    exact ⟨tmHour_mktime _ _ _ _ (tmMin_lt _) (Nat.mod_lt _ (by omega)) (tmHour_lt _),
      tmMin_mktime _ _ _ _ (tmMin_lt _) (Nat.mod_lt _ (by omega)),
      tmDay_mktime _ _ _ _ (tmMin_lt _) (Nat.mod_lt _ (by omega)) (tmHour_lt _)⟩

/-- Witness for `C9_increment_frame` at a concrete editing state. -/
theorem C9_witness :
    (handle Event.IncrementPressed demoEditing).selectedField
        = demoEditing.selectedField ∧
    (handle Event.IncrementPressed demoEditing).selectedTime
        = incrementField demoEditing.selectedField demoEditing.selectedTime ∧
    tmMin (handle Event.IncrementPressed demoEditing).selectedTime
        = tmMin demoEditing.selectedTime := by
  have h := C9_increment_frame demoEditing (by decide)
  exact ⟨h.1.2.1, h.1.2.2.2.2.2.2.2, h.2.1 (by decide) |>.1⟩

/-- C6: two consecutive TogglePressed events from the idle display state
leave the whole state unchanged (back to idle); from the editing state,
the first toggle sets the dirty flag and moves to the log view, and the
second returns to the idle display state. -/
theorem C6_toggle_pairs (s : Sys) :
    (s.state = SystemState.DISPLAY_TIME →
      handle Event.TogglePressed (handle Event.TogglePressed s) = s) ∧
    (s.state = SystemState.SET_TIME →
      (handle Event.TogglePressed s).state = SystemState.PREV_TIMES ∧
      (handle Event.TogglePressed s).timeIsDirty = true ∧
      (handle Event.TogglePressed (handle Event.TogglePressed s)).state
          = SystemState.DISPLAY_TIME) := by
  constructor
  · intro h
    cases s
    simp_all [handle, DisplayTimes]
  · intro h
    simp [handle, DisplayTimes, h]

/-- Witness for `C6_toggle_pairs` at concrete idle and editing states. -/
theorem C6_witness :
    handle Event.TogglePressed
        (handle Event.TogglePressed (boot 7 zeroRecord zeroRecord))
      = boot 7 zeroRecord zeroRecord ∧
    (handle Event.TogglePressed demoEditing).timeIsDirty = true := by
  exact ⟨(C6_toggle_pairs (boot 7 zeroRecord zeroRecord)).1 (by decide),
    ((C6_toggle_pairs demoEditing).2 (by decide)).2.1⟩

/-- C5: the dirty flag is set only by events fired while editing that
leave the editing state, no event ever clears it, no event touches the
RTC; the main loop always ends an iteration with the flag clear, writes
the working time into the RTC exactly when the flag was set, and leaves
the RTC alone otherwise. -/
theorem C5_dirty_commit_discipline :
    (∀ (s : Sys) (e : Event), (handle e s).timeIsDirty = true →
      s.timeIsDirty = true ∨
        (s.state = SystemState.SET_TIME ∧
          (e = Event.LogPressed ∨ e = Event.TogglePressed) ∧
          (handle e s).state ≠ SystemState.SET_TIME)) ∧
    (∀ (s : Sys) (e : Event), s.timeIsDirty = true → (handle e s).timeIsDirty = true) ∧
    (∀ (s : Sys) (e : Event), (handle e s).clock = s.clock) ∧
    (∀ (stack : List Nat) (s : Sys), (mainStep stack s).timeIsDirty = false) ∧
    (∀ (stack : List Nat) (s : Sys), s.timeIsDirty = true →
      (mainStep stack s).clock = s.selectedTime) ∧
    (∀ (stack : List Nat) (s : Sys), s.timeIsDirty = false →
      (mainStep stack s).clock = s.clock) := by
  have hclear : ∀ (s : Sys), (commitPending s).timeIsDirty = false := by
    intro s
    unfold commitPending
    by_cases hd : s.timeIsDirty <;> simp [hd]
  have hclock : ∀ (s : Sys), s.timeIsDirty = true → (commitPending s).clock = s.selectedTime := by
    intro s hd
    simp [commitPending, hd]
  have hclock2 : ∀ (s : Sys), s.timeIsDirty = false → commitPending s = s := by
    intro s hd
    simp [commitPending, hd]
  have hmain : ∀ (stack : List Nat) (s : Sys),
      (mainStep stack s).timeIsDirty = (commitPending s).timeIsDirty ∧
      (mainStep stack s).clock = (commitPending s).clock := by
    intro stack s
    unfold mainStep
    cases hst : (commitPending s).state <;>
      simp [hst, ShowTime, SaveTime, ShowPreviousTimes, SetTime]
  refine ⟨?_, ?_, ?_, ?_, ?_, ?_⟩
  · intro s e hd
    cases e <;>
      by_cases hs : s.state = SystemState.SET_TIME <;>
      simp_all [handle, GetTime, DisplayTimes, ValueCycle, ValueIncrement]
  · intro s e hd
    cases e <;>
      by_cases hs : s.state = SystemState.SET_TIME <;>
      simp_all [handle, GetTime, DisplayTimes, ValueCycle, ValueIncrement]
  · intro s e
    cases e <;>
      by_cases hs : s.state = SystemState.SET_TIME <;>
      simp_all [handle, GetTime, DisplayTimes, ValueCycle, ValueIncrement]
  · intro stack s
    rw [(hmain stack s).1, hclear]
  · intro stack s hd
    rw [(hmain stack s).2, hclock s hd]
  · intro stack s hd
    rw [(hmain stack s).2, hclock2 s hd]

/-- Witness for `C5_dirty_commit_discipline` at a concrete dirty state:
the main loop commits the working time and clears the flag. -/
theorem C5_witness :
    (mainStep zeroRecord { demoEditing with timeIsDirty := true, selectedTime := 42 }).clock
        = 42 ∧
    (mainStep zeroRecord { demoEditing with timeIsDirty := true, selectedTime := 42
      }).timeIsDirty = false ∧
    (handle Event.LogPressed demoEditing).clock = demoEditing.clock := by
  refine ⟨?_, C5_dirty_commit_discipline.2.2.2.1 zeroRecord _,
    C5_dirty_commit_discipline.2.2.1 demoEditing Event.LogPressed⟩
  exact C5_dirty_commit_discipline.2.2.2.2.1 zeroRecord
    { demoEditing with timeIsDirty := true, selectedTime := 42 } (by decide)

/-- C3: the spec-level edit session is `Some` exactly while the FSM is
editing; an edit-triggering event fired outside editing creates it fresh
(field marker Hour, working copy the `rawTime` snapshot), and any event
that leaves the editing state destroys it while setting the dirty flag,
i.e. the session is committed rather than discarded. -/
theorem C3_edit_session_lifecycle (s : Sys) (e : Event) :
    ((specEditSession s).isSome ↔ s.state = SystemState.SET_TIME) ∧
    (s.state ≠ SystemState.SET_TIME →
      (e = Event.CyclePressed ∨ e = Event.IncrementPressed) →
      specEditSession (handle e s) = some (0, s.rawTime)) ∧
    (s.state = SystemState.SET_TIME → (handle e s).state ≠ SystemState.SET_TIME →
      specEditSession (handle e s) = none ∧ (handle e s).timeIsDirty = true) := by
  refine ⟨?_, ?_, ?_⟩
  · unfold specEditSession
    by_cases hs : s.state = SystemState.SET_TIME <;> simp [hs]
  · intro hs he
    rcases he with he | he <;>
      simp [he, handle, ValueCycle, ValueIncrement, hs, specEditSession]
  · intro hs hleft
    cases e <;>
      simp_all [handle, GetTime, DisplayTimes, ValueCycle, ValueIncrement, specEditSession]

/-- Witness for `C3_edit_session_lifecycle`: from boot, CyclePressed
creates the session fresh; from a concrete editing state, LogPressed
destroys it and marks the commit. -/
theorem C3_witness :
    specEditSession (handle Event.CyclePressed (boot 9 zeroRecord zeroRecord))
        = some (0, (boot 9 zeroRecord zeroRecord).rawTime) ∧
    specEditSession (handle Event.LogPressed demoEditing) = none ∧
    (handle Event.LogPressed demoEditing).timeIsDirty = true := by
  have h1 := (C3_edit_session_lifecycle (boot 9 zeroRecord zeroRecord)
    Event.CyclePressed).2.1 (by decide) (Or.inl rfl)
  have h2 := (C3_edit_session_lifecycle demoEditing Event.LogPressed).2.2
    (by decide) (by decide)
  exact ⟨h1, h2.1, h2.2⟩

/-- C1: after any save sequence of length at least two, slot 1 (offset 0,
`mostRecent`) holds the record of the last save and slot 2 (offset 20,
`previous`) holds the record of the save before it; with fewer than two
saves from a device whose slots hold the unwritten default record,
`previous` still holds that default record. -/
theorem C1_log_rotation (ps : List (Nat × List Nat)) (p q : Nat × List Nat)
    (s0 : Sys) (d : List Nat) (h1 : s0.slot1 = d) (h2 : s0.slot2 = d) :
    ((doSaves (ps ++ [p, q]) s0).slot1 = savedValue q ∧
     (doSaves (ps ++ [p, q]) s0).slot2 = savedValue p) ∧
    ((doSaves [] s0).slot2 = d ∧ (doSaves [q] s0).slot2 = d) := by
  constructor
  · have hsplit : doSaves (ps ++ [p, q]) s0 = doSave (doSave (doSaves ps s0) p) q := by
      unfold doSaves
      rw [List.foldl_append]
      rfl
    rw [hsplit]
    exact ⟨rfl, rfl⟩
  · constructor
    · exact h2
    · simpa [doSaves, doSave, SaveTime] using h1

/-- Witness for `C1_log_rotation` at a concrete two-save sequence from a
factory-default device. -/
theorem C1_witness :
    (doSaves ([] ++ [(5, zeroRecord), (70, zeroRecord)])
        (boot 0 zeroRecord zeroRecord)).slot1 = savedValue (70, zeroRecord) ∧
    (doSaves ([] ++ [(5, zeroRecord), (70, zeroRecord)])
        (boot 0 zeroRecord zeroRecord)).slot2 = savedValue (5, zeroRecord) ∧
    (doSaves [(5, zeroRecord)] (boot 0 zeroRecord zeroRecord)).slot2 = zeroRecord := by
  have h := C1_log_rotation [] (5, zeroRecord) (70, zeroRecord)
    (boot 0 zeroRecord zeroRecord) zeroRecord rfl rfl
  exact ⟨h.1.1, h.1.2, h.2.2⟩

/-- When the FSM is idle with no pending commit, a main-loop iteration
just refreshes `rawTime` from the RTC. -/
theorem mainStep_display (stack : List Nat) (s : Sys)
    (hd : s.timeIsDirty = false) (hs : s.state = SystemState.DISPLAY_TIME) :
    mainStep stack s = ShowTime s := by
  rcases s with ⟨st, f, selt, d, r, p1, p2, c, sl1, sl2⟩
  simp only at hd hs
  subst hd
  subst hs
  rfl

/-- When the FSM is in the persist state, a main-loop iteration runs the
pending commit (if any) and then `SaveTime`. -/
theorem mainStep_save (stack : List Nat) (s : Sys)
    (hs : s.state = SystemState.SAVE_TIME) :
    mainStep stack s = SaveTime stack (commitPending s) := by
  rcases s with ⟨st, f, selt, d, r, p1, p2, c, sl1, sl2⟩
  simp only at hs
  subst hs
  cases d <;> rfl

/-- C4 (Scenario C): starting from a non-dirty idle state, the main loop
renders (sampling the RTC into `rawTime`); CyclePressed then enters
editing with the Hour field selected and the working copy equal to the
current clock; three IncrementPressed events advance the hour by 3
(mod 24) leaving minutes and seconds alone; LogPressed marks the commit
and moves to the persist state, and the next main-loop iteration first
writes the edited value into the RTC and only then runs the save, so the
rotated log's fresh slot-1 record is formatted from the newly committed
time. -/
theorem C4_edit_then_log_scenario (s0 s1 s2 s3 s4 s5 : Sys) (pad stk : List Nat)
    (hstate : s0.state = SystemState.DISPLAY_TIME) (hdirty : s0.timeIsDirty = false)
    (e1 : s1 = mainStep pad s0)
    (e2 : s2 = handle Event.CyclePressed s1)
    (e3 : s3 = handle Event.IncrementPressed
      (handle Event.IncrementPressed (handle Event.IncrementPressed s2)))
    (e4 : s4 = handle Event.LogPressed s3)
    (e5 : s5 = mainStep stk s4) :
    (s2.state = SystemState.SET_TIME ∧ s2.selectedField = 0 ∧
      s2.selectedTime = s1.clock ∧ s1.clock = s0.clock) ∧
    (tmHour s3.selectedTime = (tmHour s0.clock + 3) % 24 ∧
      tmMin s3.selectedTime = tmMin s0.clock ∧ tmSec s3.selectedTime = tmSec s0.clock) ∧
    (s4.timeIsDirty = true ∧ s4.state = SystemState.SAVE_TIME) ∧
    (s5.clock = s3.selectedTime ∧ s5.timeIsDirty = false ∧
      s5.slot1 = sprintfBuffer s5.clock stk ∧ s5.slot2 = s0.slot1 ∧
      s5.state = SystemState.DISPLAY_TIME) := by
  have h1 : s1 = ShowTime s0 := by
    rw [e1]
    exact mainStep_display pad s0 hdirty hstate
  have hsel3 : s3.selectedTime
      = incrementField 0 (incrementField 0 (incrementField 0 s0.clock)) := by
    simp [e3, e2, h1, handle, ValueIncrement, ValueCycle, ShowTime, hstate]
  have h4a : s4.timeIsDirty = true := by
    simp [e4, e3, e2, h1, handle, GetTime, ValueIncrement, ValueCycle, ShowTime, hstate]
  have h4b : s4.state = SystemState.SAVE_TIME := by
    simp [e4, handle, GetTime]
  have hs5 : s5 = SaveTime stk (commitPending s4) := by
    rw [e5]
    exact mainStep_save stk s4 h4b
  have h4sel : s4.selectedTime = s3.selectedTime := by
    simp [e4, handle, GetTime]
  refine ⟨?_, ?_, ⟨h4a, h4b⟩, ?_⟩
  · refine ⟨?_, ?_, ?_, ?_⟩ <;>
      simp [e2, h1, handle, ValueCycle, ShowTime, hstate]
  · rw [hsel3]
    have hh := tmHour_lt s0.clock
    refine ⟨?_, ?_, ?_⟩
    · rw [tmHour_incrementField_zero, tmHour_incrementField_zero,
        tmHour_incrementField_zero]
      omega
    · rw [tmMin_incrementField_zero, tmMin_incrementField_zero,
        tmMin_incrementField_zero]
    · rw [tmSec_incrementField_zero, tmSec_incrementField_zero,
        tmSec_incrementField_zero]
  · refine ⟨?_, ?_, ?_, ?_, ?_⟩
    · rw [hs5, ← h4sel]
      simp [SaveTime, commitPending, h4a]
    · rw [hs5]
      simp [SaveTime, commitPending, h4a]
    · rw [hs5]
      simp [SaveTime, commitPending, h4a]
    · rw [hs5]
      simp [SaveTime, commitPending, h4a, e4, handle, GetTime, e3, ValueIncrement,
        e2, ValueCycle, h1, ShowTime, hstate]
    · rw [hs5]
      simp [SaveTime]

/-- Witness for `C4_edit_then_log_scenario`: the concrete run from the
boot state with the RTC at 7200 seconds (02:00:00) ends with the RTC
committed to 05:00:00 and that time in slot 1. -/
theorem C4_witness :
    (mainStep zeroRecord (handle Event.LogPressed (handle Event.IncrementPressed
      (handle Event.IncrementPressed (handle Event.IncrementPressed
        (handle Event.CyclePressed (mainStep zeroRecord
          (boot 7200 zeroRecord zeroRecord)))))))).clock
      = (handle Event.IncrementPressed (handle Event.IncrementPressed
          (handle Event.IncrementPressed (handle Event.CyclePressed (mainStep zeroRecord
            (boot 7200 zeroRecord zeroRecord)))))).selectedTime ∧
    tmHour (handle Event.IncrementPressed (handle Event.IncrementPressed
      (handle Event.IncrementPressed (handle Event.CyclePressed (mainStep zeroRecord
        (boot 7200 zeroRecord zeroRecord)))))).selectedTime
      = (tmHour (boot 7200 zeroRecord zeroRecord).clock + 3) % 24 := by
  have h := C4_edit_then_log_scenario (boot 7200 zeroRecord zeroRecord)
    (mainStep zeroRecord (boot 7200 zeroRecord zeroRecord))
    (handle Event.CyclePressed (mainStep zeroRecord (boot 7200 zeroRecord zeroRecord)))
    (handle Event.IncrementPressed (handle Event.IncrementPressed
      (handle Event.IncrementPressed
        (handle Event.CyclePressed (mainStep zeroRecord
          (boot 7200 zeroRecord zeroRecord))))))
    (handle Event.LogPressed (handle Event.IncrementPressed (handle Event.IncrementPressed
      (handle Event.IncrementPressed
        (handle Event.CyclePressed (mainStep zeroRecord
          (boot 7200 zeroRecord zeroRecord)))))))
    (mainStep zeroRecord (handle Event.LogPressed (handle Event.IncrementPressed
      (handle Event.IncrementPressed (handle Event.IncrementPressed
        (handle Event.CyclePressed (mainStep zeroRecord
          (boot 7200 zeroRecord zeroRecord))))))))
    zeroRecord zeroRecord rfl rfl rfl rfl rfl rfl rfl
  exact ⟨h.2.2.2.1, h.2.1.1⟩

/-- C2 fails as stated: entering editing copies the cached global
`rawTime`, it performs no fresh clock read.  Concretely, one RTC tick
after the last render, CyclePressed fires in a non-editing state and the
created session's working time differs from the live clock at entry. -/
theorem C2_counterexample :
    (tick 1 (mainStep zeroRecord (boot 1735603200 zeroRecord zeroRecord))).state
        ≠ SystemState.SET_TIME ∧
    (handle Event.CyclePressed (tick 1 (mainStep zeroRecord
      (boot 1735603200 zeroRecord zeroRecord)))).state = SystemState.SET_TIME ∧
    (handle Event.CyclePressed (tick 1 (mainStep zeroRecord
      (boot 1735603200 zeroRecord zeroRecord)))).selectedTime
        ≠ (tick 1 (mainStep zeroRecord
            (boot 1735603200 zeroRecord zeroRecord))).clock := by
  refine ⟨by decide, by decide, ?_⟩
  simp [handle, ValueCycle, tick, mainStep, commitPending, boot, ShowTime]

/-- C2 amended: entering editing via CyclePressed or IncrementPressed
initializes the working time to the most recently sampled clock value
(the global `rawTime`, refreshed when the main loop renders or saves),
and neither RTC advances nor main-loop iterations ever change the
working time, so live-clock progress cannot affect it before the
commit. -/
theorem C2_snapshot_from_rawTime (s : Sys) (h : s.state ≠ SystemState.SET_TIME) :
    ((handle Event.CyclePressed s).selectedTime = s.rawTime ∧
     (handle Event.IncrementPressed s).selectedTime = s.rawTime) ∧
    (∀ (n : Nat) (u : Sys), (tick n u).selectedTime = u.selectedTime) ∧
    (∀ (stack : List Nat) (u : Sys), (mainStep stack u).selectedTime = u.selectedTime) := by
  refine ⟨⟨?_, ?_⟩, ?_, ?_⟩
  · simp [handle, ValueCycle, h]
  · simp [handle, ValueIncrement, h]
  · intro n u
    rfl
  · intro stack u
    rcases u with ⟨st, f, selt, d, r, p1, p2, c, sl1, sl2⟩
    cases d <;> cases st <;> rfl

/-- Witness for `C2_snapshot_from_rawTime` at the boot state. -/
theorem C2_witness :
    (handle Event.CyclePressed (boot 11 zeroRecord zeroRecord)).selectedTime
        = (boot 11 zeroRecord zeroRecord).rawTime ∧
    (tick 3 (handle Event.CyclePressed (boot 11 zeroRecord zeroRecord))).selectedTime
        = (handle Event.CyclePressed (boot 11 zeroRecord zeroRecord)).selectedTime := by
  have h := C2_snapshot_from_rawTime (boot 11 zeroRecord zeroRecord) (by decide)
  exact ⟨h.1.1, h.2.1 3 _⟩

/-- C8 fails as stated: the bytes after "HH:MM:SS" are one NUL
terminator and then eleven residual stack bytes, which need not be
zero/space padding.  With a buffer previously holding 88 ('X')
everywhere, the written record is not zero/space padded. -/
theorem C8_counterexample :
    ¬ isPaddedRecord 0 (sprintfBuffer 0 (List.replicate 20 88)) := by decide

/-- C8 amended: every fresh record written to slot 1 is exactly 20
bytes; its first 8 bytes are the ASCII "HH:MM:SS" text (digits and
colons), its ninth byte is the NUL terminator, and the remaining 11
bytes are the residual prior stack-buffer content, which is not
constrained to zero/space. -/
theorem C8_record_layout (t : Nat) (stack : List Nat) (h : stack.length = 20) :
    (sprintfBuffer t stack).length = 20 ∧
    (sprintfBuffer t stack).take 8 = fmtHMS t ∧
    (sprintfBuffer t stack).drop 8 = 0 :: stack.drop 9 ∧
    (fmtHMS t).length = 8 ∧
    (∀ b ∈ fmtHMS t, (48 ≤ b ∧ b ≤ 57) ∨ b = 58) := by
  have hlen : (fmtHMS t).length = 8 := by simp [fmtHMS, digits2]
  refine ⟨?_, ?_, ?_, hlen, ?_⟩
  · simp [sprintfBuffer, hlen, h]
  · rw [sprintfBuffer, List.take_left' hlen]
  · rw [sprintfBuffer, List.drop_left' hlen]
  · intro b hb
    have h1 := tmHour_lt t
    have h2 := tmMin_lt t
    have h3 := tmSec_lt t
    simp [fmtHMS, digits2] at hb
    rcases hb with hb | hb | hb | hb | hb | hb | hb | hb <;> subst hb <;> omega

/-- Witness for `C8_record_layout` at a concrete time and buffer. -/
theorem C8_witness :
    (sprintfBuffer 3725 zeroRecord).length = 20 ∧
    (sprintfBuffer 3725 zeroRecord).take 8 = fmtHMS 3725 ∧
    (sprintfBuffer 3725 zeroRecord).drop 8 = 0 :: zeroRecord.drop 9 := by
  have h := C8_record_layout 3725 zeroRecord (by decide)
  exact ⟨h.1, h.2.1, h.2.2.1⟩
